import Mathlib

/-!
# Verification of the goptional library (`goptional.go`)

A shallow embedding of the `goptional` Go package. The generic type
`Optional[T]` is modelled by the structure `Optional T`; the Go API works
through pointers `*Optional[T]`, which may be nil, so methods are defined on
`OptionalPtr T := Option (Optional T)` with `none` standing for the nil
pointer. Go panics and returned `error` values are modelled with `Except`
and `Option GoError`. Mutating methods (`Take`, `Replace`, `UnmarshalJSON`)
are modelled as functions returning the new receiver state together with
their results.

The reflection-based helper `isValueValid[T]` depends on the runtime shape
of `T`; it is modelled by the class `GoType T` providing that check (and the
zero value of `T`, Go's `var zero T`). The type `GoValue` is a deep
embedding of Go runtime values as `reflect.ValueOf` classifies them
(an interface argument is seen through to its dynamic value; the untyped
nil interface is the invalid value), and carries the concrete instance
implementing the reflection switch of the source's `isValueValid`.
-/

namespace goptional

/-- Go runtime values as `reflect.ValueOf` sees them: `invalid` is the nil
interface (reflection's `!v.IsValid()`); the nilable kinds carry `none` for
their nil sentinel; the remaining kinds are never nil. A slice/map payload
of `some []` is the empty-but-non-nil slice/map. -/
inductive GoValue where
  | invalid : GoValue
  | ptr (target : Option Nat) : GoValue
  | slice (elems : Option (List GoValue)) : GoValue
  | goMap (elems : Option (List GoValue)) : GoValue
  | goChan (handle : Option Nat) : GoValue
  | goFunc (id : Option Nat) : GoValue
  | str (s : String) : GoValue
  | goInt (n : Int) : GoValue
  | goBool (b : Bool) : GoValue
  | goStruct (fields : List GoValue) : GoValue

/-- Source `isValueValid` (goptional.go:515-530) at type `GoValue`: false if
the value is reflection-invalid, or of kind Ptr/Interface/Slice/Map/Chan/Func
with a nil runtime value; true otherwise. -/
def GoValue.isValueValid : GoValue → Bool
  | .invalid => false
  | .ptr target => target.isSome
  | .slice elems => elems.isSome
  | .goMap elems => elems.isSome
  | .goChan handle => handle.isSome
  | .goFunc id => id.isSome
  | .str _ => true
  | .goInt _ => true
  | .goBool _ => true
  | .goStruct _ => true

/-- The shape-dependent pieces of the source that a Go generic `T` supplies:
`isValueValid` (goptional.go:515-530, reflection on the runtime value) and
the zero value `getZeroOfType` (goptional.go:532-535, Go's `var zero T`). -/
class GoType (T : Type) where
  isValueValid : T → Bool
  getZeroOfType : T

instance : GoType GoValue := ⟨GoValue.isValueValid, .invalid⟩

/-- Go `int`: reflection kind `Int`, never nil-shaped, zero value `0`. -/
instance : GoType Int := ⟨fun _ => true, 0⟩

/-- Go `string`: reflection kind `String`, never nil-shaped, zero value `""`. -/
instance : GoType String := ⟨fun _ => true, ""⟩

mutual
/-- Structural (deep) equality of `GoValue`s, modelling `reflect.DeepEqual`
on this value universe: recursive comparison of shapes and contents. -/
def GoValue.deepEqual : GoValue → GoValue → Bool
  | .invalid, .invalid => true
  | .ptr a, .ptr b => a == b
  | .slice none, .slice none => true
  | .slice (some xs), .slice (some ys) => GoValue.deepEqualList xs ys
  | .goMap none, .goMap none => true
  | .goMap (some xs), .goMap (some ys) => GoValue.deepEqualList xs ys
  | .goChan a, .goChan b => a == b
  | .goFunc a, .goFunc b => a == b
  | .str a, .str b => a == b
  | .goInt a, .goInt b => a == b
  | .goBool a, .goBool b => a == b
  | .goStruct xs, .goStruct ys => GoValue.deepEqualList xs ys
  | _, _ => false

def GoValue.deepEqualList : List GoValue → List GoValue → Bool
  | [], [] => true
  | x :: xs, y :: ys => GoValue.deepEqual x y && GoValue.deepEqualList xs ys
  | _, _ => false
end

/-- The struct `Optional[T]` (goptional.go:14-17): a payload slot and the
presence flag. -/
structure Optional (T : Type) where
  value : T
  isValueValid : Bool
deriving DecidableEq, Repr

/-- The Go API passes `*Optional[T]`; `none` models the nil pointer. -/
abbrev OptionalPtr (T : Type) := Option (Optional T)

/-- Errors of the library: `ErrNoValue` (goptional.go:20), `ErrMutationOnNil`
(goptional.go:23), and an underlying JSON decode error with its message. -/
inductive GoError where
  | errNoValue : GoError
  | errMutationOnNil : GoError
  | jsonError (msg : String) : GoError
deriving DecidableEq, Repr

deriving instance DecidableEq for Except

/-- `Empty` (goptional.go:26-28): a fresh zero struct `&Optional[T]{}`. -/
def Empty {T : Type} [GoType T] : OptionalPtr T :=
  some { value := GoType.getZeroOfType, isValueValid := false }

/-- `Of` (goptional.go:32-45): wraps the value if `isValueValid` accepts it,
else returns `Empty`. -/
def Of {T : Type} [GoType T] (value : T) : OptionalPtr T :=
  if GoType.isValueValid value then
    some { value := value, isValueValid := true }
  else
    Empty

/-- `IsPresent` (goptional.go:48-50): `o != nil && o.isValueValid`. -/
def IsPresent {T : Type} : OptionalPtr T → Bool
  | none => false
  | some o => o.isValueValid

/-- `IsEmpty` (goptional.go:53-55): `o == nil || !o.isValueValid`. -/
def IsEmpty {T : Type} : OptionalPtr T → Bool
  | none => true
  | some o => !o.isValueValid

/-- The field read `o.value`; the source performs it via `o.Unwrap()` only
after establishing presence, where `Unwrap` returns exactly this field. -/
def getValue {T : Type} [GoType T] : OptionalPtr T → T
  | none => GoType.getZeroOfType
  | some o => o.value

/-- `Unwrap` (goptional.go:61-67): the payload when present; panics with
`ErrNoValue` when empty. The panic is modelled by `Except.error`. -/
def Unwrap {T : Type} [GoType T] (o : OptionalPtr T) : Except GoError T :=
  if IsEmpty o then .error .errNoValue else .ok (getValue o)

/-- `unsetValue` (goptional.go:504-512) on a non-nil receiver: zero payload,
flag false. -/
def unsetValue {T : Type} [GoType T] (_ : Optional T) : Optional T :=
  { value := GoType.getZeroOfType, isValueValid := false }

/-- `setValue` (goptional.go:489-501) on a non-nil receiver: install the
value when it is valid, otherwise unset. -/
def setValue {T : Type} [GoType T] (o : Optional T) (value : T) : Optional T :=
  if GoType.isValueValid value then
    { value := value, isValueValid := true }
  else
    unsetValue o

/-- `Filter` (goptional.go:94-108). The Go `predicate func(T) bool` may be
nil, hence `Option`; `none` is the nil predicate. -/
def Filter {T : Type} [GoType T] (o : OptionalPtr T)
    (predicate : Option (T → Bool)) : OptionalPtr T :=
  if IsEmpty o then o
  else
    match predicate with
    | none => Empty
    | some p => if p (getValue o) then o else Empty

/-- `Map` (goptional.go:115-121): `Empty` if the input is empty or the mapper
is nil, else `Of (mapper value)`. -/
def Map {X Y : Type} [GoType X] [GoType Y] (input : OptionalPtr X)
    (mapper : Option (X → Y)) : OptionalPtr Y :=
  if IsEmpty input then Empty
  else
    match mapper with
    | none => Empty
    | some f => Of (f (getValue input))

/-- `reflect.DeepEqual` at a Go type `T`: full structural comparison. -/
class DeepEq (T : Type) where
  deepEqual : T → T → Bool

instance : DeepEq GoValue := ⟨GoValue.deepEqual⟩

/-- `reflect.DeepEqual` on Go `int` is value equality. -/
instance : DeepEq Int := ⟨fun a b => a == b⟩

/-- `reflect.DeepEqual` on Go `string` is value equality. -/
instance : DeepEq String := ⟨fun a b => a == b⟩

/-- `Equals` (goptional.go:271-281): true iff both empty, or both present
with `reflect.DeepEqual` payloads. -/
def Equals {T : Type} [GoType T] [DeepEq T] (o o2 : OptionalPtr T) : Bool :=
  if !IsPresent o && !IsPresent o2 then true
  else if IsPresent o && IsPresent o2 then
    DeepEq.deepEqual (getValue o) (getValue o2)
  else false

/-- `UnwrapOr` (goptional.go:252-266): the payload when present; when empty,
panics with the supplier's error, or with `ErrNoValue` when the supplier is
nil (`none`) or returns a nil error (`none`). -/
def UnwrapOr {T : Type} [GoType T] (o : OptionalPtr T)
    (supplier : Option (Unit → Option GoError)) : Except GoError T :=
  if IsEmpty o then
    match supplier with
    | none => .error .errNoValue
    | some f =>
      match f () with
      | some err => .error err
      | none => .error .errNoValue
  else .ok (getValue o)

/-- `nilAsJSON` (goptional.go:304): the JSON null literal. -/
def nilAsJSON : String := "null"

/-- The `encoding/json` facility at a Go type `T`: `json.Marshal` and
`json.Unmarshal` into a fresh `var value T`, both fallible. -/
class JSONCodec (T : Type) where
  marshal : T → Except GoError String
  unmarshal : String → Except GoError T

/-- `MarshalJSON` (goptional.go:307-313): `nilAsJSON` when empty, else the
payload's own JSON encoding. -/
def MarshalJSON {T : Type} [GoType T] [JSONCodec T]
    (o : OptionalPtr T) : Except GoError String :=
  if IsEmpty o then .ok nilAsJSON else JSONCodec.marshal (getValue o)

/-- `UnmarshalJSON` (goptional.go:316-334), returning the new receiver state
and the returned error. Nil receiver: `ErrMutationOnNil`. Empty data or the
null literal: unset and succeed. Otherwise decode into a fresh `T`; the
decode error is returned with the receiver untouched; a decoded value is
installed through `setValue`. -/
def UnmarshalJSON {T : Type} [GoType T] [JSONCodec T] :
    OptionalPtr T → String → OptionalPtr T × Option GoError
  | none, _ => (none, some .errMutationOnNil)
  | some o, data =>
    if data.length == 0 || data == nilAsJSON then (some (unsetValue o), none)
    else
      match JSONCodec.unmarshal (T := T) data with
      | .error err => (some o, some err)
      | .ok value => (some (setValue o value), none)

/-- `Take` (goptional.go:346-354), returning the new receiver state and the
returned pointer. Empty (or nil) receiver: returned unchanged. Present:
unset in place and return `Of` of the extracted payload. -/
def Take {T : Type} [GoType T] : OptionalPtr T → OptionalPtr T × OptionalPtr T
  | none => (none, none)
  | some o =>
    if !o.isValueValid then (some o, some o)
    else (some (unsetValue o), Of o.value)

/-- `Replace` (goptional.go:360-373), returning the new receiver state, the
returned pointer and the returned error. Nil receiver: `(nil,
ErrMutationOnNil)`. Otherwise install the value via `setValue` and return
`Empty` when the receiver was empty, or `Of` of the previous payload. -/
def Replace {T : Type} [GoType T] :
    OptionalPtr T → T → OptionalPtr T × OptionalPtr T × Option GoError
  | none, _ => (none, none, some .errMutationOnNil)
  | some o, value =>
    if !o.isValueValid then (some (setValue o value), Empty, none)
    else (some (setValue o value), Of o.value, none)

/-- `Pair` (goptional.go:376-381). -/
structure Pair (X Y : Type) where
  First : X
  Second : Y
deriving DecidableEq, Repr

/-- The Go type `*Pair[X, Y]`: a possibly-nil pointer to a pair. -/
abbrev PairPtr (X Y : Type) := Option (Pair X Y)

/-- A `*Pair[X, Y]` value is pointer-shaped: valid iff non-nil; Go zero
value is the nil pointer. -/
instance {X Y : Type} : GoType (PairPtr X Y) := ⟨Option.isSome, none⟩

/-- `Zip` (goptional.go:387-393): `Of(&Pair{First: o1 value, Second: o2
value})` when both present, `Empty` otherwise. -/
def Zip {X Y : Type} [GoType X] [GoType Y] (o1 : OptionalPtr X)
    (o2 : OptionalPtr Y) : OptionalPtr (PairPtr X Y) :=
  if IsPresent o1 && IsPresent o2 then
    Of (T := PairPtr X Y) (some ⟨getValue o1, getValue o2⟩)
  else Empty

/-- `Unzip` (goptional.go:397-404): the components of the unwrapped pair
when present, two `Empty`s otherwise. A present payload is a valid, hence
non-nil, pair pointer; the nil-pair branch mirrors Go's nil dereference
being unreachable and is never hit for API-built values. -/
def Unzip {X Y : Type} [GoType X] [GoType Y]
    (o : OptionalPtr (PairPtr (OptionalPtr X) (OptionalPtr Y))) :
    OptionalPtr X × OptionalPtr Y :=
  if IsPresent o then
    match getValue o with
    | some pair => (pair.First, pair.Second)
    | none => (Empty, Empty)
  else (Empty, Empty)

/-- Decimal digits of `n`, most significant first, via an explicit fuel
argument so the definition reduces inside the kernel. -/
def natDigitsAux : Nat → Nat → List Char → List Char
  | 0, _, acc => acc
  | fuel + 1, n, acc =>
    if n < 10 then Char.ofNat (48 + n) :: acc
    else natDigitsAux fuel (n / 10) (Char.ofNat (48 + n % 10) :: acc)

/-- Decimal rendering of an integer. -/
def intToDecimal (n : Int) : String :=
  match n with
  | .ofNat m => ⟨natDigitsAux (m + 1) m []⟩
  | .negSucc m => ⟨'-' :: natDigitsAux (m + 2) (m + 1) []⟩

/-- Parse a non-empty string of decimal digits. -/
def digitsToNat : List Char → Option Nat
  | [] => none
  | cs =>
    cs.foldl (fun acc c =>
      match acc with
      | none => none
      | some n => if c.isDigit then some (n * 10 + (c.toNat - 48)) else none)
      (some 0)

/-- Parse an optionally-signed decimal integer. -/
def decimalToInt (s : String) : Option Int :=
  match s.data with
  | '-' :: cs => (digitsToNat cs).map fun n => -(n : Int)
  | cs => (digitsToNat cs).map fun n => (n : Int)

/-- A concrete `encoding/json` instance at Go `int`, used to instantiate the
round-trip theorems: decimal encoding and decoding, a decode failure
carrying the offending input. -/
instance : JSONCodec Int where
  marshal n := .ok (intToDecimal n)
  unmarshal s :=
    match decimalToInt s with
    | some n => .ok n
    | none => .error (.jsonError s)

/-- From the spec's words (§3): the nilable shapes are pointer, interface,
slice/dynamic-array, associative-map, channel/queue-handle and
function/closure reference. The reflection-invalid value is the nil
interface, hence of interface shape. -/
def specNilableShape : GoValue → Bool
  | .invalid => true
  | .ptr _ => true
  | .slice _ => true
  | .goMap _ => true
  | .goChan _ => true
  | .goFunc _ => true
  | .str _ => false
  | .goInt _ => false
  | .goBool _ => false
  | .goStruct _ => false

/-- From the spec's words (§3): the runtime value is the nil/unset sentinel
for its shape. -/
def specIsNilSentinel : GoValue → Bool
  | .invalid => true
  | .ptr none => true
  | .slice none => true
  | .goMap none => true
  | .goChan none => true
  | .goFunc none => true
  | _ => false

/-- C1: `Of(v)` is empty iff `v` is of a nilable shape and its runtime value
is nil; every other value (zero primitives, zero structs, empty-but-non-nil
slices/maps included) yields a present `Optional` whose payload is `v`. -/
theorem of_empty_iff_nilable_and_nil (v : GoValue) :
    (IsEmpty (Of v) = (specNilableShape v && specIsNilSentinel v)) ∧
    ((specNilableShape v && specIsNilSentinel v) = false →
      Of v = some { value := v, isValueValid := true }) := by
  cases v with
  | invalid =>
    simp [Of, Empty, IsEmpty, specNilableShape, specIsNilSentinel,
      GoType.isValueValid, GoValue.isValueValid]
  | ptr t =>
    cases t <;>
      simp [Of, Empty, IsEmpty, specNilableShape, specIsNilSentinel,
        GoType.isValueValid, GoValue.isValueValid]
  | slice e =>
    cases e <;>
      simp [Of, Empty, IsEmpty, specNilableShape, specIsNilSentinel,
        GoType.isValueValid, GoValue.isValueValid]
  | goMap e =>
    cases e <;>
      simp [Of, Empty, IsEmpty, specNilableShape, specIsNilSentinel,
        GoType.isValueValid, GoValue.isValueValid]
  | goChan h =>
    cases h <;>
      simp [Of, Empty, IsEmpty, specNilableShape, specIsNilSentinel,
        GoType.isValueValid, GoValue.isValueValid]
  | goFunc i =>
    cases i <;>
      simp [Of, Empty, IsEmpty, specNilableShape, specIsNilSentinel,
        GoType.isValueValid, GoValue.isValueValid]
  | str s =>
    simp [Of, Empty, IsEmpty, specNilableShape, specIsNilSentinel,
      GoType.isValueValid, GoValue.isValueValid]
  | goInt n =>
    simp [Of, Empty, IsEmpty, specNilableShape, specIsNilSentinel,
      GoType.isValueValid, GoValue.isValueValid]
  | goBool b =>
    simp [Of, Empty, IsEmpty, specNilableShape, specIsNilSentinel,
      GoType.isValueValid, GoValue.isValueValid]
  | goStruct fs =>
    simp [Of, Empty, IsEmpty, specNilableShape, specIsNilSentinel,
      GoType.isValueValid, GoValue.isValueValid]

/-- Witness for C1 at the empty string, a non-nilable zero value. -/
theorem of_empty_iff_nilable_and_nil_witness :
    Of (GoValue.str "") = some { value := GoValue.str "", isValueValid := true } :=
  (of_empty_iff_nilable_and_nil (.str "")).2 rfl

/-- C4: `Filter` returns the receiver unchanged on an empty receiver for
every predicate; on a present receiver it keeps the receiver iff the
predicate holds on the payload, and a nil predicate on a present receiver
yields `Empty`, never the receiver. -/
theorem filter_semantics {T : Type} [GoType T] (o : OptionalPtr T)
    (p : T → Bool) (q : Option (T → Bool)) :
    (IsEmpty o = true → Filter o q = o) ∧
    (IsPresent o = true →
      Filter o (some p) = (if p (getValue o) then o else Empty)) ∧
    (IsPresent o = true → Filter o none = (Empty : OptionalPtr T)) ∧
    (IsPresent o = true → Filter o none ≠ o) := by
  refine ⟨fun h => ?_, fun h => ?_, fun h => ?_, fun h => ?_⟩
  · simp [Filter, h]
  · cases o with
    | none => simp [IsPresent] at h
    | some x => simp [IsPresent] at h; simp [Filter, IsEmpty, h]
  · cases o with
    | none => simp [IsPresent] at h
    | some x => simp [IsPresent] at h; simp [Filter, IsEmpty, h]
  · cases o with
    | none => simp [IsPresent] at h
    | some x =>
      simp [IsPresent] at h
      have hfil : Filter (some x) none = (Empty : OptionalPtr T) := by
        simp [Filter, IsEmpty, h]
      rw [hfil]
      intro hx
      simp [Empty] at hx
      rw [← hx] at h
      simp at h

/-- Witness for C4 at a present `Of 3 : OptionalPtr Int` and the even
predicate. -/
theorem filter_semantics_witness :
    Filter (Of (3 : Int)) (some fun x => x % 2 == 0) = Empty ∧
    Filter (Of (3 : Int)) none = Empty ∧
    Filter (Of (3 : Int)) none ≠ Of (3 : Int) := by
  have h := filter_semantics (Of (3 : Int)) (fun x => x % 2 == 0)
    (some fun x => x % 2 == 0)
  exact ⟨by rw [h.2.1 rfl]; rfl, h.2.2.1 rfl, h.2.2.2 rfl⟩

/-- C5: `Unwrap` returns the payload when present and the `ErrNoValue` panic
when empty; `UnwrapOr` panics with `ErrNoValue` exactly when no caller error
is supplied (nil supplier, or supplier returning a nil error), and with the
caller's error verbatim otherwise. -/
theorem unwrap_no_value {T : Type} [GoType T] (o : OptionalPtr T)
    (f : Unit → Option GoError) (e : GoError) :
    (IsPresent o = true → Unwrap o = .ok (getValue o)) ∧
    (IsEmpty o = true → Unwrap o = .error .errNoValue) ∧
    (IsEmpty o = true → UnwrapOr o none = .error .errNoValue) ∧
    (IsEmpty o = true → f () = none → UnwrapOr o (some f) = .error .errNoValue) ∧
    (IsEmpty o = true → f () = some e → UnwrapOr o (some f) = .error e) ∧
    (IsPresent o = true → UnwrapOr o (some f) = .ok (getValue o)) := by
  have hpe : IsPresent o = true → IsEmpty o = false := by
    cases o with
    | none => simp [IsPresent]
    | some x => simp [IsPresent, IsEmpty]
  refine ⟨fun h => ?_, fun h => ?_, fun h => ?_, fun h hf => ?_,
    fun h hf => ?_, fun h => ?_⟩
  · simp [Unwrap, hpe h]
  · simp [Unwrap, h]
  · simp [UnwrapOr, h]
  · simp [UnwrapOr, h, hf]
  · simp [UnwrapOr, h, hf]
  · simp [UnwrapOr, hpe h]

/-- Witness for C5 at `Of 7 : OptionalPtr Int`, `Empty`, and a supplier
returning a decode error. -/
theorem unwrap_no_value_witness :
    Unwrap (Of (7 : Int)) = .ok 7 ∧
    Unwrap (Empty : OptionalPtr Int) = .error .errNoValue ∧
    UnwrapOr (Empty : OptionalPtr Int)
      (some fun _ => some (.jsonError "boom")) = .error (.jsonError "boom") := by
  have h1 := unwrap_no_value (Of (7 : Int))
    (fun _ => some (.jsonError "boom")) (.jsonError "boom")
  have h2 := unwrap_no_value (Empty : OptionalPtr Int)
    (fun _ => some (.jsonError "boom")) (.jsonError "boom")
  exact ⟨by rw [h1.1 rfl]; rfl, h2.2.1 rfl, h2.2.2.2.2.1 rfl rfl⟩

/-- C6: `Map` on an empty input is `Empty` for every mapper, the result does
not depend on the mapper (it is never invoked); on a present input with a
non-nil mapper the result is `Of` of the mapped payload, so a mapper
producing a nil-shaped value yields an empty result. -/
theorem map_law {X Y : Type} [GoType X] [GoType Y] (input : OptionalPtr X)
    (f g : X → Y) (m : Option (X → Y)) :
    (IsEmpty input = true → Map input m = (Empty : OptionalPtr Y)) ∧
    (IsEmpty input = true → Map input (some f) = Map input (some g)) ∧
    (IsPresent input = true → Map input (some f) = Of (f (getValue input))) ∧
    (IsPresent input = true → GoType.isValueValid (f (getValue input)) = false →
      IsEmpty (Map input (some f)) = true) := by
  have hpe : IsPresent input = true → IsEmpty input = false := by
    cases input with
    | none => simp [IsPresent]
    | some x => simp [IsPresent, IsEmpty]
  refine ⟨fun h => ?_, fun h => ?_, fun h => ?_, fun h hv => ?_⟩
  · simp [Map, h]
  · simp [Map, h]
  · simp [Map, hpe h]
  · simp [Map, hpe h, Of, hv, Empty, IsEmpty]

/-- Witness for C6 at `Of 5 : OptionalPtr Int` and a mapper returning a nil
pointer `GoValue`. -/
theorem map_law_witness :
    Map (Of (5 : Int)) (some fun _ => GoValue.ptr none) = Empty ∧
    Map (Empty : OptionalPtr Int)
      (some fun _ => GoValue.ptr (some 1)) = (Empty : OptionalPtr GoValue) := by
  have h1 := map_law (Of (5 : Int)) (fun _ => GoValue.ptr none)
    (fun _ => GoValue.ptr none) none
  have h2 := map_law (Empty : OptionalPtr Int) (fun _ => GoValue.ptr (some 1))
    (fun _ => GoValue.ptr (some 1)) (some fun _ => GoValue.ptr (some 1))
  refine ⟨?_, h2.1 rfl⟩
  rw [h1.2.2.1 rfl]; rfl

/-- C3: `Take` moves the payload out (`a` becomes empty, the returned
Optional unwraps to it) and is the identity returning an empty Optional on
an empty receiver; `Replace` unconditionally installs `Of(newValue)`'s state
into the receiver — present or empty per the new value's meaningfulness,
with no validity hypothesis on `v` — and returns an Optional wrapping the
previous state (`Of` of the old payload when present, `Empty` when
empty). -/
theorem take_replace_ownership {T : Type} [GoType T] (a : Optional T) (w : T)
    (hw : GoType.isValueValid w = true) :
    Take (Of w) = (Empty, Of w) ∧
    Unwrap (Of w) = .ok w ∧
    (IsEmpty (some a) = true → Take (some a) = (some a, some a)) ∧
    (∀ v : T, (Replace (some a) v).1 = Of v) ∧
    (∀ v : T, (Replace (some a) v).2.1 =
      (if a.isValueValid then Of a.value else Empty)) ∧
    (∀ v : T, (Replace (some a) v).2.2 = none) := by
  refine ⟨?_, ?_, fun h => ?_, fun v => ?_, fun v => ?_, fun v => ?_⟩
  · simp [Take, Of, hw, unsetValue, Empty]
  · simp [Unwrap, Of, hw, IsEmpty, getValue]
  · simp [IsEmpty] at h
    simp [Take, h]
  · by_cases ha : a.isValueValid <;> by_cases hv : GoType.isValueValid v <;>
      simp [Replace, ha, hv, setValue, unsetValue, Of, Empty]
  · by_cases ha : a.isValueValid <;> simp [Replace, ha]
  · by_cases ha : a.isValueValid <;> simp [Replace, ha]

/-- Witness for C3 at `a = Of 123`, `w = 789`: after `b = a.Take()`, `a` is
empty and `b` unwraps to `123`; after `b = a.Replace(789)`, `a` unwraps to
`789` and `b` unwraps to `123`; and replacing with the nil-shaped
`GoValue.ptr none` installs an empty state. -/
theorem take_replace_ownership_witness :
    Take (Of (123 : Int)) = (Empty, Of 123) ∧
    Unwrap (Take (Of (123 : Int))).2 = .ok 123 ∧
    (Replace (some ⟨123, true⟩) (789 : Int)).1 = Of 789 ∧
    Unwrap (Replace (some ⟨123, true⟩) (789 : Int)).1 = .ok 789 ∧
    Unwrap (Replace (some ⟨123, true⟩) (789 : Int)).2.1 = .ok 123 ∧
    (Replace (some ⟨GoValue.goInt 1, true⟩) (GoValue.ptr none)).1 = Empty := by
  have h123 := take_replace_ownership (⟨123, true⟩ : Optional Int) 123 rfl
  have h789 := take_replace_ownership (⟨123, true⟩ : Optional Int) 789 rfl
  have hgo := take_replace_ownership
    (⟨GoValue.goInt 1, true⟩ : Optional GoValue) (GoValue.goInt 1) rfl
  refine ⟨h123.1, ?_, ?_, ?_, ?_, ?_⟩
  · rw [h123.1]; exact h123.2.1
  · exact h789.2.2.2.1 789
  · rw [h789.2.2.2.1 789]; exact h789.2.1
  · have h5 := h789.2.2.2.2.1 789
    rw [h5]
    exact h123.2.1
  · rw [hgo.2.2.2.1 (GoValue.ptr none)]
    simp [Of, GoType.isValueValid, GoValue.isValueValid]

/-- C7: `Equals` is true iff both Optionals are empty or both are present
with `reflect.DeepEqual` payloads (false when exactly one is present); in
particular `Of x` equals itself whenever deep equality is reflexive at
`x`. -/
theorem equals_deep_equality {T : Type} [GoType T] [DeepEq T]
    (o o2 : OptionalPtr T) (x : T) (hx : DeepEq.deepEqual x x = true) :
    (Equals o o2 = true ↔
      (IsEmpty o = true ∧ IsEmpty o2 = true) ∨
      (IsPresent o = true ∧ IsPresent o2 = true ∧
        DeepEq.deepEqual (getValue o) (getValue o2) = true)) ∧
    Equals (Of x) (Of x) = true := by
  constructor
  · cases o with
    | none =>
      cases o2 with
      | none => simp [Equals, IsEmpty, IsPresent]
      | some y =>
        by_cases hy : y.isValueValid <;>
          simp [Equals, IsEmpty, IsPresent, hy]
    | some z =>
      cases o2 with
      | none =>
        by_cases hz : z.isValueValid <;>
          simp [Equals, IsEmpty, IsPresent, hz]
      | some y =>
        by_cases hz : z.isValueValid <;> by_cases hy : y.isValueValid <;>
          simp [Equals, IsEmpty, IsPresent, hz, hy, getValue]
  · by_cases hv : GoType.isValueValid x <;>
      simp [Equals, Of, hv, Empty, IsPresent, getValue, hx]

/-- Witness for C7 at present `Of 5` / `Of 5`, and mixed presence. -/
theorem equals_deep_equality_witness :
    Equals (Of (5 : Int)) (Of 5) = true ∧
    Equals (Of (5 : Int)) Empty = false := by
  have h := equals_deep_equality (Of (5 : Int)) (Empty : OptionalPtr Int)
    (5 : Int) rfl
  refine ⟨h.2, ?_⟩
  by_contra hne
  have : Equals (Of (5 : Int)) (Empty : OptionalPtr Int) = true := by
    revert hne
    cases heq : Equals (Of (5 : Int)) (Empty : OptionalPtr Int) <;> simp
  rcases h.1.mp this with ⟨h1, _⟩ | ⟨_, h2, _⟩
  · revert h1; decide
  · revert h2; decide

/-- C8: `Unzip (Of (Pair (Of a) (Of b))) = (Of a, Of b)`;
`Zip (Of a) (Of b)` unwraps to the pair `{a, b}`; and `Zip` is `Empty`
whenever at least one input is empty. -/
theorem zip_unzip_inverse {X Y : Type} [GoType X] [GoType Y]
    (a : X) (b : Y) (oa : OptionalPtr X) (ob : OptionalPtr Y)
    (ox : OptionalPtr X) (oy : OptionalPtr Y)
    (ha : GoType.isValueValid a = true) (hb : GoType.isValueValid b = true) :
    Unzip (Of (T := PairPtr (OptionalPtr X) (OptionalPtr Y))
      (some ⟨ox, oy⟩)) = (ox, oy) ∧
    Unwrap (Zip (Of a) (Of b)) = .ok (some ⟨a, b⟩) ∧
    (IsEmpty oa = true → Zip oa ob = Empty) ∧
    (IsEmpty ob = true → Zip oa ob = Empty) := by
  have hemp : ∀ {W : Type} [GoType W] (o : OptionalPtr W),
      IsEmpty o = true → IsPresent o = false := by
    intro W _ o h
    cases o with
    | none => rfl
    | some x => simp [IsEmpty] at h; simp [IsPresent, h]
  refine ⟨?_, ?_, fun h => ?_, fun h => ?_⟩
  · simp [Unzip, Of, GoType.isValueValid, IsPresent, getValue]
  · simp [Zip, Of, ha, hb, IsPresent, getValue, GoType.isValueValid,
      Unwrap, Unwrap, IsEmpty]
  · simp [Zip, hemp oa h]
  · simp [Zip, hemp ob h]

/-- Witness for C8 at `a = 1`, `b = 2` over `Int`. -/
theorem zip_unzip_inverse_witness :
    Unzip (Of (T := PairPtr (OptionalPtr Int) (OptionalPtr Int))
      (some ⟨Of 1, Of 2⟩)) = (Of 1, Of 2) ∧
    Unwrap (Zip (Of (1 : Int)) (Of (2 : Int))) = .ok (some ⟨1, 2⟩) ∧
    Zip (Empty : OptionalPtr Int) (Of (2 : Int)) = Empty := by
  have h := zip_unzip_inverse (1 : Int) (2 : Int)
    (Empty : OptionalPtr Int) (Of (2 : Int)) (Of (1 : Int)) (Of (2 : Int))
    rfl rfl
  exact ⟨h.1, h.2.1, h.2.2.1 rfl⟩

/-- C2: for a JSON-serializable present `Of v` (the codec encodes `v` to
`s`, decodes `s` back to `v`, and `s` is neither empty nor the null token),
marshalling yields `s` and unmarshalling `s` into any receiver yields
exactly `Of v`'s state with no error; marshalling `Empty` yields the null
token; unmarshalling the null token or zero-length input resets the
receiver to empty and succeeds. -/
theorem marshal_unmarshal_round_trip {T : Type} [GoType T] [JSONCodec T]
    (v : T) (s : String) (o : Optional T)
    (hv : GoType.isValueValid v = true)
    (henc : JSONCodec.marshal v = .ok s)
    (hdec : JSONCodec.unmarshal s = .ok v)
    (hlen : s.length ≠ 0) (hnull : s ≠ nilAsJSON) :
    MarshalJSON (Of v) = .ok s ∧
    UnmarshalJSON (some o) s = (Of v, none) ∧
    MarshalJSON (Empty : OptionalPtr T) = .ok nilAsJSON ∧
    UnmarshalJSON (some o) nilAsJSON = (Empty, none) ∧
    UnmarshalJSON (some o) "" = (Empty, none) := by
  refine ⟨?_, ?_, ?_, ?_, ?_⟩
  · simp [MarshalJSON, Of, hv, IsEmpty, getValue, henc]
  · simp [UnmarshalJSON, hlen, hnull, hdec, setValue, hv, Of]
  · simp [MarshalJSON, Empty, IsEmpty]
  · simp [UnmarshalJSON, nilAsJSON, unsetValue, Empty]
  · simp [UnmarshalJSON, unsetValue, Empty]

/-- Witness for C2 over `Int` at `v = 123`, `s = "123"`, receiver `Of 7`'s
state. -/
theorem marshal_unmarshal_round_trip_witness :
    MarshalJSON (Of (123 : Int)) = .ok "123" ∧
    UnmarshalJSON (some ⟨7, true⟩) "123" = (Of (123 : Int), none) ∧
    MarshalJSON (Empty : OptionalPtr Int) = .ok nilAsJSON ∧
    UnmarshalJSON (some (⟨7, true⟩ : Optional Int)) nilAsJSON = (Empty, none) ∧
    UnmarshalJSON (some (⟨7, true⟩ : Optional Int)) "" = (Empty, none) :=
  marshal_unmarshal_round_trip 123 "123" ⟨7, true⟩ rfl (by decide) (by decide)
    (by decide) (by decide)

/-- C9: on any non-nil receiver, any data that is non-empty, not the null
token and fails to decode makes `UnmarshalJSON` return the decode error
unmodified with the receiver's presence flag and payload exactly as they
were. -/
theorem unmarshal_error_atomic {T : Type} [GoType T] [JSONCodec T]
    (o : Optional T) (data : String) (e : GoError)
    (hlen : data.length ≠ 0) (hnull : data ≠ nilAsJSON)
    (herr : JSONCodec.unmarshal (T := T) data = .error e) :
    UnmarshalJSON (some o) data = (some o, some e) := by
  simp [UnmarshalJSON, hlen, hnull, herr]

/-- Witness for C9 over `Int` at undecodable data `"abc"`, present receiver
`{123, true}`. -/
theorem unmarshal_error_atomic_witness :
    UnmarshalJSON (some (⟨123, true⟩ : Optional Int)) "abc" =
      (some ⟨123, true⟩, some (.jsonError "abc")) :=
  unmarshal_error_atomic ⟨123, true⟩ "abc" (.jsonError "abc") (by decide)
    (by decide) (by decide)

/-- C10: on the nil receiver, `IsPresent` is false and `IsEmpty` is true;
the read/combinator operations behave as on an empty Optional (`Unwrap`
panics `ErrNoValue`, `Filter` returns the nil receiver itself, `Map` is
`Empty`, `UnwrapOr` and `Equals` agree with their behaviour on `Empty`,
`MarshalJSON` emits the null token, `Take` returns the nil receiver); the
in-place mutations `UnmarshalJSON` and `Replace` return `ErrMutationOnNil`
instead of crashing. -/
theorem nil_receiver_total {T Y : Type} [GoType T] [GoType Y] [DeepEq T]
    [JSONCodec T] (q : Option (T → Bool)) (m : Option (T → Y))
    (o2 : OptionalPtr T) (v : T) (data : String)
    (sup : Option (Unit → Option GoError)) :
    IsPresent (none : OptionalPtr T) = false ∧
    IsEmpty (none : OptionalPtr T) = true ∧
    Unwrap (none : OptionalPtr T) = .error .errNoValue ∧
    Filter (none : OptionalPtr T) q = none ∧
    Map (none : OptionalPtr T) m = (Empty : OptionalPtr Y) ∧
    UnwrapOr (none : OptionalPtr T) sup = UnwrapOr (Empty : OptionalPtr T) sup ∧
    Equals (none : OptionalPtr T) o2 = Equals (Empty : OptionalPtr T) o2 ∧
    MarshalJSON (none : OptionalPtr T) = .ok nilAsJSON ∧
    Take (none : OptionalPtr T) = (none, none) ∧
    UnmarshalJSON (none : OptionalPtr T) data = (none, some .errMutationOnNil) ∧
    Replace (none : OptionalPtr T) v = (none, none, some .errMutationOnNil) := by
  refine ⟨rfl, rfl, rfl, ?_, rfl, ?_, ?_, rfl, rfl, rfl, rfl⟩
  · simp [Filter, IsEmpty]
  · simp [UnwrapOr, IsEmpty, Empty]
  · simp [Equals, IsPresent, Empty]

end goptional
